import Mathlib

/-!
Shallow embedding of `src/server.js` (HomeProjects): a small Express app over
SQLite (`better-sqlite3`) with `multer` uploads, `sharp` image normalization
and `archiver` zip export.  Each definition mirrors the SQL statement or route
handler it is named after.  SQL statements are embedded by their documented
SQLite semantics; library middleware (`multer`, Express's default error
handler) is embedded by its documented behaviour, since `server.js` registers
no error-handling middleware of its own.
-/

namespace HomeProjects

/-- Embeds one record-store table (`checklist_items`, `notes` or
`project_status`, server.js:46-62): rows keyed by the TEXT primary key `id`,
carrying one value column (`checked` / `content` / `status`).  The
`updated_at` column is omitted: no claim under verification mentions it. -/
abbrev Store (α : Type) := List (String × α)

/-- Embeds `INSERT INTO t (id, value, updated_at) VALUES (?, ?,
CURRENT_TIMESTAMP) ON CONFLICT(id) DO UPDATE SET value = ?, updated_at =
CURRENT_TIMESTAMP` (server.js:148-153, 168-173, 188-193).  SQLite attempts
the insert; on a primary-key conflict it instead updates the conflicting row
in place. -/
def upsert {α : Type} (s : Store α) (id : String) (v : α) : Store α :=
  if s.any (fun r => r.1 == id) then
    s.map (fun r => if r.1 == id then (id, v) else r)
  else
    s ++ [(id, v)]

/-- Embeds the `{id: value}` mapping that `GET /api/progress` builds from
`SELECT id, … FROM t` via `reduce` (server.js:122-133).  Upsert keeps primary
keys unique, so first-match lookup describes the resulting object. -/
def get_all {α : Type} (s : Store α) (id : String) : Option α :=
  s.lookup id

/-- Rows of a table that carry a given id. -/
def rowsFor {α : Type} (s : Store α) (id : String) : Store α :=
  s.filter (fun r => r.1 == id)

/-- Replays a sequence of upsert calls against a table. -/
def applyUpserts {α : Type} (init : Store α) (ops : List (String × α)) : Store α :=
  ops.foldl (fun s p => upsert s p.1 p.2) init

/-- Embeds a row of the `photos` table (server.js:64-70): `id INTEGER PRIMARY
KEY AUTOINCREMENT`, `slot_id`, `filename`, `original_name`, `uploaded_at`.
Timestamps are modelled as naturals (ordered instants). -/
structure PhotoRow where
  id : Nat
  slot_id : String
  filename : String
  original_name : String
  uploaded_at : Nat
deriving DecidableEq

/-- Comparison used by `ORDER BY uploaded_at ASC` (server.js:278). -/
def leAsc (a b : PhotoRow) : Prop := a.uploaded_at ≤ b.uploaded_at

/-- Comparison used by `ORDER BY uploaded_at DESC` (server.js:105). -/
def leDesc (a b : PhotoRow) : Prop := b.uploaded_at ≤ a.uploaded_at

instance : DecidableRel leAsc := fun a b => Nat.decLe a.uploaded_at b.uploaded_at

instance : DecidableRel leDesc := fun a b => Nat.decLe b.uploaded_at a.uploaded_at

instance : IsTotal PhotoRow leAsc := ⟨fun a b => Nat.le_total a.uploaded_at b.uploaded_at⟩

instance : IsTotal PhotoRow leDesc := ⟨fun a b => Nat.le_total b.uploaded_at a.uploaded_at⟩

instance : IsTrans PhotoRow leAsc := ⟨fun _ _ _ h h' => Nat.le_trans h h'⟩

instance : IsTrans PhotoRow leDesc := ⟨fun _ _ _ h h' => Nat.le_trans h' h⟩

/-- Embeds `SELECT … FROM photos ORDER BY uploaded_at DESC` (server.js:105);
`ORDER BY` is embedded as a stable sort. -/
def progressPhotos (table : List PhotoRow) : List PhotoRow :=
  List.insertionSort leDesc table

/-- Embeds the per-slot group built by the `reduce` of `GET /api/progress`
(server.js:108-119): rows are pushed in scan order, so each slot's list keeps
the descending order of the scan. -/
def photosBySlot (table : List PhotoRow) (slot : String) : List PhotoRow :=
  (progressPhotos table).filter (fun p => p.slot_id == slot)

/-- Embeds `SELECT … FROM photos WHERE slot_id = ? ORDER BY uploaded_at ASC`
(server.js:278). -/
def downloadPhotos (table : List PhotoRow) (slot : String) : List PhotoRow :=
  List.insertionSort leAsc (table.filter (fun p => p.slot_id == slot))

/-- Friendly names for photo slots (server.js:10-17). -/
def slotNames : List (String × String) :=
  [("p1-dishwasher-latch", "dishwasher-door-latch"),
   ("p2-humidifier", "furnace-humidifier"),
   ("p3-sharkbite-connection", "fridge-sharkbite-connection"),
   ("p4-laundry-current", "laundry-room-current"),
   ("p4-laundry-planned", "laundry-room-planned"),
   ("p5-sink-faucet", "bathroom-sink-faucet")]

/-- Project names for archive filenames (server.js:19-26). -/
def projectNames : List (String × String) :=
  [("p1-dishwasher-latch", "Project1-Dishwasher"),
   ("p2-humidifier", "Project2-Humidifier"),
   ("p3-sharkbite-connection", "Project3-FridgeWater"),
   ("p4-laundry-current", "Project4-LaundryRoom"),
   ("p4-laundry-planned", "Project4-LaundryRoom"),
   ("p5-sink-faucet", "Project5-BathroomSink")]

/-- Embeds `slotNames[slotId] || slotId` (server.js:285). -/
def friendlySlotName (slotId : String) : String :=
  (slotNames.lookup slotId).getD slotId

/-- Embeds `projectNames[slotId] || 'HomeProject'` (server.js:286). -/
def friendlyProjectName (slotId : String) : String :=
  (projectNames.lookup slotId).getD "HomeProject"

/-- Entry name for the photo at 0-based position `index` of the ascending
scan: `${friendlySlotName}-photo-${index + 1}.jpg` (server.js:308). -/
def entryName (friendly : String) (index : Nat) : String :=
  friendly ++ "-photo-" ++ toString (index + 1) ++ ".jpg"

/-- Embeds the `photos.forEach((photo, index) => …)` loop of the export route
(server.js:305-311): a photo whose blob exists on disk (`fs.existsSync`)
contributes one archive entry `(entry name, source blob filename)`; a photo
whose blob is missing contributes nothing.  `blobs` is the set of filenames
present in the uploads directory. -/
def archiveEntries (blobs : List String) (friendly : String) (photos : List PhotoRow) :
    List (String × String) :=
  photos.enum.filterMap (fun ip =>
    if ip.2.filename ∈ blobs then some (entryName friendly ip.1, ip.2.filename) else none)

/-- Result of `GET /api/photos/:slotId/download` (server.js:273-320). -/
inductive ExportResult where
  | notFound (status : Nat) (msg : String)
  | archive (zipName : String) (entries : List (String × String))
deriving DecidableEq

/-- Embeds `GET /api/photos/:slotId/download` (server.js:273-320): read the
slot's catalog rows in ascending upload order; with zero rows respond
`404 No photos found`, otherwise stream a zip named
`${projectName}-photos.zip` holding one entry per photo whose blob exists. -/
def exportSlot (table : List PhotoRow) (blobs : List String) (slot : String) : ExportResult :=
  let photos := downloadPhotos table slot
  if photos.isEmpty then .notFound 404 "No photos found"
  else .archive (friendlyProjectName slot ++ "-photos.zip")
    (archiveEntries blobs (friendlySlotName slot) photos)

/-- Server state touched by the photo routes: the `photos` table, the set of
blob filenames present in the uploads directory, and SQLite's next
AUTOINCREMENT id. -/
structure AppState where
  photos : List PhotoRow
  blobs : List String
  nextId : Nat
deriving DecidableEq

/-- Embeds `SELECT … FROM photos WHERE id = ?` (server.js:251): the catalog
row for a photo id, or not-found. -/
def getPhoto (table : List PhotoRow) (photoId : Nat) : Option PhotoRow :=
  table.find? (fun p => p.id == photoId)

/-- Result of `DELETE /api/photos/:photoId` (server.js:246-270). -/
inductive DeleteResult where
  | notFound (status : Nat) (msg : String)
  | success
deriving DecidableEq

/-- Embeds `DELETE /api/photos/:photoId` (server.js:246-270): look the row up;
absent → `404 Photo not found`; otherwise `fs.unlinkSync` the blob only when
`fs.existsSync` reports it (a missing blob is skipped, not an error), then
`DELETE FROM photos WHERE id = ?`, then respond success. -/
def deletePhoto (st : AppState) (photoId : Nat) : DeleteResult × AppState :=
  match getPhoto st.photos photoId with
  | none => (.notFound 404 "Photo not found", st)
  | some photo =>
    let blobs' := if photo.filename ∈ st.blobs
      then st.blobs.filter (fun f => f != photo.filename)
      else st.blobs
    (.success,
      { photos := st.photos.filter (fun p => p.id != photoId),
        blobs := blobs',
        nextId := st.nextId })

/-- Embeds the uploaded file as multer's memory storage presents it: declared
mimetype, byte size, client-supplied original name, raw bytes. -/
structure UploadFile where
  mimetype : String
  size : Nat
  originalname : String
  buffer : List Nat
deriving DecidableEq

/-- Embeds `allowedTypes` of the multer `fileFilter` (server.js:81). -/
def allowedTypes : List String :=
  ["image/jpeg", "image/png", "image/gif", "image/webp", "image/heic", "image/heif"]

/-- Embeds `limits.fileSize` (server.js:78): 10 MiB. -/
def fileSizeLimit : Nat := 10 * 1024 * 1024

/-- Embeds `${slotId}-${timestamp}.jpg` (server.js:210-211): `timestamp` is
`Date.now()` in milliseconds and renders in decimal. -/
def photoFilename (slotId : String) (timestamp : Nat) : String :=
  slotId ++ "-" ++ toString timestamp ++ ".jpg"

/-- Outcome of `POST /api/photos/:slotId`. -/
inductive UploadOutcome where
  | rejected (status : Nat) (msg : String)
  | uploaded (id : Nat) (filename : String) (originalName : String)
deriving DecidableEq

/-- Predicate for a 400-class (4xx) HTTP status. -/
def is4xx (status : Nat) : Prop := 400 ≤ status ∧ status < 500

instance (status : Nat) : Decidable (is4xx status) :=
  inferInstanceAs (Decidable (400 ≤ status ∧ status < 500))

/-- Embeds `POST /api/photos/:slotId` (server.js:203-243) together with the
`multer` middleware it is mounted behind (server.js:75-88).  Stages, in order:
(1) `multer` runs first: a file part with a disallowed mimetype makes
`fileFilter` raise `Invalid file type. Only images are allowed.`, and a part
larger than `limits.fileSize` raises multer's `LIMIT_FILE_SIZE`
(`File too large`).  Either error skips the route handler; `server.js`
registers no error-handling middleware, and neither error carries a
`status`/`statusCode` field, so Express's default error handler answers with
status 500.  (2) In the handler, a missing file is answered
`400 No file uploaded`.  (3) `sharp` normalization (auto-rotate, bounded
resize, jpeg quality 85, server.js:215-222) is embedded as the abstract
parameter `normalize`; on a decode failure it throws before the output file
is created, caught by the handler as `500 Failed to upload photo`.  (4) On
success the normalized bytes are written to `${slotId}-${now}.jpg` and a
catalog row is inserted, `uploaded_at` taken from SQLite's clock `dbNow`. -/
def processUpload (normalize : List Nat → Option (List Nat)) (now dbNow : Nat)
    (slotId : String) (file : Option UploadFile) (st : AppState) :
    UploadOutcome × AppState :=
  match file with
  | none => (.rejected 400 "No file uploaded", st)
  | some f =>
    if f.mimetype ∈ allowedTypes then
      if f.size ≤ fileSizeLimit then
        match normalize f.buffer with
        | none => (.rejected 500 "Failed to upload photo", st)
        | some _ =>
          (.uploaded st.nextId (photoFilename slotId now) f.originalname,
            { photos := st.photos ++
                [⟨st.nextId, slotId, photoFilename slotId now, f.originalname, dbNow⟩],
              blobs := st.blobs ++ [photoFilename slotId now],
              nextId := st.nextId + 1 })
      else (.rejected 500 "File too large", st)
    else (.rejected 500 "Invalid file type. Only images are allowed.", st)

/-- DDL default of `project_status.status` (server.js:60): `TEXT DEFAULT
'pending'`. -/
def statusDdlDefault : String := "pending"

/-- Modelled from the spec: the client shell under `public/` (referenced via
`express.static`, server.js:92, but not present under `src/`) consumes the
`statuses` mapping of `GET /api/progress`; per the spec a `ProjectStatus`
"defaults to `pending` when absent", i.e. an id with no stored row is
observed with the DDL default status. -/
def statusObservable (statuses : Store String) (id : String) : String :=
  (get_all statuses id).getD statusDdlDefault

/-- Embeds a JSON value as `express.json()` can deliver it in
`req.body.checked`, plus `undef` for an absent field.  Array and object
payloads are not inspected by the server (only their truthiness matters), so
they are carried as bare constructors; JSON cannot encode `NaN` or
`Infinity`, so numbers are exact rationals. -/
inductive Json where
  | null
  | undef
  | bool (b : Bool)
  | num (q : Rat)
  | str (s : String)
  | arr
  | obj
deriving DecidableEq

/-- JavaScript truthiness for the values `Json` can carry: `false`, `0`,
`""`, `null` and `undefined` are falsy, everything else truthy. -/
def truthy : Json → Bool
  | .null => false
  | .undef => false
  | .bool b => b
  | .num q => q != 0
  | .str s => s != ""
  | .arr => true
  | .obj => true

/-- Embeds `checked ? 1 : 0` (server.js:153): the value stored in the
`checked` column. -/
def checkedToStored (checked : Json) : Nat :=
  if truthy checked then 1 else 0

/-- Embeds `item.checked === 1` (server.js:123): the boolean placed in the
progress view's checklist mapping. -/
def storedToChecked (n : Nat) : Bool := n == 1

/-- Decimal value of a digit string (most significant first); used to show
that the decimal rendering in `photoFilename` is injective. -/
def digitsVal (l : List Char) : Nat :=
  l.foldl (fun acc c => acc * 10 + (c.toNat - 48)) 0

/-! ### Helper lemmas -/

theorem keys_upsert {α : Type} (s : Store α) (id : String) (v : α)
    (h : (s.map Prod.fst).Nodup) : ((upsert s id v).map Prod.fst).Nodup := by
  unfold upsert
  cases hb : s.any (fun r => r.1 == id) with
  | true =>
    rw [if_pos rfl, List.map_map]
    have hcg : ∀ r ∈ s, (Prod.fst ∘ fun r => if r.1 == id then (id, v) else r) r = r.1 := by
      intro r _
      cases hc : (r.1 == id) with
      | true => simp [Function.comp, hc, eq_of_beq hc]
      | false => simp [Function.comp, hc]
    rw [List.map_congr_left hcg]
    exact h
  | false =>
    rw [if_neg Bool.false_ne_true, List.map_append, List.map_cons, List.map_nil,
      List.nodup_append]
    refine ⟨h, List.nodup_singleton _, ?_⟩
    intro a ha
    simp only [List.mem_singleton]
    intro hcontra
    subst hcontra
    rw [List.any_eq_false] at hb
    simp only [List.mem_map] at ha
    obtain ⟨r, hr, hfst⟩ := ha
    exact hb r hr (by simp [hfst])

theorem rowsFor_replace {α : Type} : ∀ (s : Store α), (s.map Prod.fst).Nodup →
    ∀ (id : String) (v : α),
    rowsFor (s.map (fun r => if r.1 == id then (id, v) else r)) id =
      if s.any (fun r => r.1 == id) then [(id, v)] else [] := by
  intro s
  induction s with
  | nil => intro _ id v; simp [rowsFor]
  | cons r t ih =>
    intro hnd id v
    simp only [List.map_cons, List.nodup_cons] at hnd
    cases hr : (r.1 == id) with
    | true =>
      have hrid : r.1 = id := eq_of_beq hr
      have htail : rowsFor (t.map (fun x => if x.1 == id then (id, v) else x)) id = [] := by
        have hnone : t.any (fun x => x.1 == id) = false := by
          rw [List.any_eq_false]
          intro x hx
          cases hc : (x.1 == id) with
          | false => simp
          | true =>
            exfalso
            apply hnd.1
            have hx1 : x.1 = r.1 := (eq_of_beq hc).trans hrid.symm
            rw [← hx1]
            exact List.mem_map_of_mem Prod.fst hx
        rw [ih hnd.2 id v, hnone, if_neg Bool.false_ne_true]
      have hany : ((r :: t).any fun x => x.1 == id) = true := by
        simp [List.any_cons, hr]
      rw [hany, if_pos rfl]
      unfold rowsFor at htail ⊢
      rw [List.map_cons, if_pos hr, List.filter_cons, if_pos (beq_self_eq_true id), htail]
    | false =>
      have hany : ((r :: t).any fun x => x.1 == id) = (t.any fun x => x.1 == id) := by
        simp [List.any_cons, hr]
      rw [hany]
      unfold rowsFor
      rw [List.map_cons, if_neg (by simp [hr]), List.filter_cons, if_neg (by simp [hr])]
      exact ih hnd.2 id v

theorem rowsFor_upsert {α : Type} (s : Store α) (id : String) (v : α)
    (h : (s.map Prod.fst).Nodup) : rowsFor (upsert s id v) id = [(id, v)] := by
  unfold upsert
  cases hb : s.any (fun r => r.1 == id) with
  | true =>
    rw [if_pos rfl]
    have := rowsFor_replace s h id v
    rw [hb, if_pos rfl] at this
    exact this
  | false =>
    rw [if_neg Bool.false_ne_true]
    rw [List.any_eq_false] at hb
    unfold rowsFor
    rw [List.filter_append, List.filter_eq_nil_iff.mpr hb]
    simp

theorem lookup_of_rowsFor {α : Type} : ∀ (s : Store α) (id : String) (v : α),
    rowsFor s id = [(id, v)] → s.lookup id = some v := by
  intro s
  induction s with
  | nil => intro id v h; simp [rowsFor] at h
  | cons r t ih =>
    intro id v h
    simp only [rowsFor, List.filter_cons] at h
    cases hr : (r.1 == id) with
    | true =>
      rw [if_pos hr] at h
      injection h with h1 h2
      subst h1
      simp [List.lookup]
    | false =>
      rw [if_neg (by simp [hr])] at h
      have hsym : (id == r.1) = false := by
        cases hc : (id == r.1) with
        | false => rfl
        | true =>
          rw [eq_of_beq hc] at hr
          rw [beq_self_eq_true] at hr
          exact absurd hr (by simp)
      rw [List.lookup, hsym]
      exact ih id v h

theorem keys_applyUpserts {α : Type} (ops : List (String × α)) :
    ∀ (init : Store α), (init.map Prod.fst).Nodup →
    ((applyUpserts init ops).map Prod.fst).Nodup := by
  induction ops with
  | nil => intro init h; exact h
  | cons p t ih =>
    intro init h
    exact ih (upsert init p.1 p.2) (keys_upsert init p.1 p.2 h)

theorem filterMap_ite {β γ : Type} (l : List β) (p : β → Prop) [DecidablePred p] (f : β → γ) :
    l.filterMap (fun x => if p x then some (f x) else none) =
      (l.filter (fun x => decide (p x))).map f := by
  induction l with
  | nil => rfl
  | cons a t ih =>
    by_cases h : p a
    · simp [List.filterMap_cons, List.filter_cons, h, ih]
    · simp [List.filterMap_cons, List.filter_cons, h, ih]

theorem deletePhoto_notFound (st : AppState) (photoId : Nat)
    (h : getPhoto st.photos photoId = none) :
    deletePhoto st photoId = (DeleteResult.notFound 404 "Photo not found", st) := by
  unfold deletePhoto
  rw [h]

theorem digitChar_isDigit : ∀ m : Nat, m < 10 → (Nat.digitChar m).isDigit = true := by decide

theorem digitChar_val : ∀ m : Nat, m < 10 → (Nat.digitChar m).toNat - 48 = m := by decide

theorem toDigitsCore_append (fuel : Nat) : ∀ (n : Nat) (acc : List Char),
    Nat.toDigitsCore 10 fuel n acc = Nat.toDigitsCore 10 fuel n [] ++ acc := by
  induction fuel with
  | zero => intro n acc; rfl
  | succ f ih =>
    intro n acc
    simp only [Nat.toDigitsCore]
    by_cases h : n / 10 = 0
    · rw [if_pos h, if_pos h]
      rfl
    · rw [if_neg h, if_neg h, ih (n / 10) (Nat.digitChar (n % 10) :: acc),
        ih (n / 10) [Nat.digitChar (n % 10)], List.append_assoc]
      rfl

theorem toDigitsCore_digits (fuel : Nat) : ∀ (n : Nat) (c : Char),
    c ∈ Nat.toDigitsCore 10 fuel n [] → c.isDigit = true := by
  induction fuel with
  | zero => intro n c h; simp [Nat.toDigitsCore] at h
  | succ f ih =>
    intro n c h
    simp only [Nat.toDigitsCore] at h
    by_cases hn : n / 10 = 0
    · rw [if_pos hn] at h
      have hc : c = Nat.digitChar (n % 10) := by simpa using h
      subst hc
      exact digitChar_isDigit _ (Nat.mod_lt _ (by norm_num))
    · rw [if_neg hn, toDigitsCore_append f (n / 10) [Nat.digitChar (n % 10)]] at h
      rcases List.mem_append.mp h with h1 | h2
      · exact ih (n / 10) c h1
      · have hc : c = Nat.digitChar (n % 10) := by simpa using h2
        subst hc
        exact digitChar_isDigit _ (Nat.mod_lt _ (by norm_num))

theorem digitsVal_append (l : List Char) (c : Char) :
    digitsVal (l ++ [c]) = (digitsVal l) * 10 + (c.toNat - 48) := by
  unfold digitsVal
  rw [List.foldl_append]
  rfl

theorem toDigitsCore_val (fuel : Nat) : ∀ n : Nat, n < fuel →
    digitsVal (Nat.toDigitsCore 10 fuel n []) = n := by
  induction fuel with
  | zero => intro n h; omega
  | succ f ih =>
    intro n h
    simp only [Nat.toDigitsCore]
    by_cases hn : n / 10 = 0
    · rw [if_pos hn]
      have h10 : n < 10 := by omega
      rw [Nat.mod_eq_of_lt h10]
      show 0 * 10 + ((Nat.digitChar n).toNat - 48) = n
      rw [Nat.zero_mul, Nat.zero_add]
      exact digitChar_val n h10
    · rw [if_neg hn, toDigitsCore_append f (n / 10) [Nat.digitChar (n % 10)], digitsVal_append,
        ih (n / 10) (by omega), digitChar_val (n % 10) (Nat.mod_lt _ (by norm_num))]
      omega

theorem repr_val (n : Nat) : digitsVal (Nat.repr n).data = n := by
  show digitsVal (Nat.toDigitsCore 10 (n + 1) n []) = n
  exact toDigitsCore_val (n + 1) n (Nat.lt_succ_self n)

theorem repr_digits (n : Nat) (c : Char) (h : c ∈ (Nat.repr n).data) : c.isDigit = true :=
  toDigitsCore_digits (n + 1) n c h

theorem front_dash_split : ∀ (x₁ y₁ x₂ y₂ : List Char), '-' ∉ x₁ → '-' ∉ x₂ →
    x₁ ++ '-' :: y₁ = x₂ ++ '-' :: y₂ → x₁ = x₂ ∧ y₁ = y₂ := by
  intro x₁
  induction x₁ with
  | nil =>
    intro y₁ x₂ y₂ _ h2 h
    cases x₂ with
    | nil =>
      simp only [List.nil_append] at h
      injection h with _ ht
      exact ⟨rfl, ht⟩
    | cons c t =>
      exfalso
      simp only [List.nil_append, List.cons_append] at h
      injection h with hc _
      apply h2
      rw [hc]
      exact List.mem_cons_self c t
  | cons c t ih =>
    intro y₁ x₂ y₂ h1 h2 h
    cases x₂ with
    | nil =>
      exfalso
      simp only [List.cons_append, List.nil_append] at h
      injection h with hc _
      apply h1
      rw [← hc]
      exact List.mem_cons_self c t
    | cons c' t' =>
      simp only [List.cons_append] at h
      injection h with hc ht
      obtain ⟨he, hy⟩ := ih y₁ t' y₂ (fun hm => h1 (List.mem_cons_of_mem c hm))
        (fun hm => h2 (List.mem_cons_of_mem c' hm)) ht
      exact ⟨by rw [hc, he], hy⟩

theorem last_dash_split (a₁ b₁ a₂ b₂ : List Char) (h1 : '-' ∉ b₁) (h2 : '-' ∉ b₂)
    (h : a₁ ++ '-' :: b₁ = a₂ ++ '-' :: b₂) : a₁ = a₂ ∧ b₁ = b₂ := by
  have hrev := congrArg List.reverse h
  simp only [List.reverse_append, List.reverse_cons, List.append_assoc,
    List.singleton_append] at hrev
  have hx := front_dash_split b₁.reverse a₁.reverse b₂.reverse a₂.reverse
    (fun hm => h1 (List.mem_reverse.mp hm)) (fun hm => h2 (List.mem_reverse.mp hm)) hrev
  exact ⟨List.reverse_injective hx.2, List.reverse_injective hx.1⟩

/-! ### Claim theorems -/

/-- C1: for every domain and id, after any sequence of upserts against a fresh
table ending in `upsert id v`, the table holds exactly one row for `id`,
carrying value `v`, and `get_all` maps `id` to `v`; repeating the very same
upsert (idempotence) still leaves exactly that one row, so `pending` then
`done` for one id ends with the single row `done`. -/
theorem C1_upsert_exactly_one_row {α : Type} (ops : List (String × α)) (id : String) (v : α) :
    rowsFor (upsert (applyUpserts [] ops) id v) id = [(id, v)] ∧
    get_all (upsert (applyUpserts [] ops) id v) id = some v ∧
    rowsFor (upsert (upsert (applyUpserts [] ops) id v) id v) id = [(id, v)] ∧
    get_all (upsert (upsert (applyUpserts [] ops) id v) id v) id = some v := by
  have hnd : ((applyUpserts ([] : Store α) ops).map Prod.fst).Nodup :=
    keys_applyUpserts ops [] (by simp)
  have h1 := rowsFor_upsert (applyUpserts [] ops) id v hnd
  have hnd2 := keys_upsert (applyUpserts [] ops) id v hnd
  have h3 := rowsFor_upsert (upsert (applyUpserts [] ops) id v) id v hnd2
  exact ⟨h1, lookup_of_rowsFor _ id v h1, h3, lookup_of_rowsFor _ id v h3⟩

/-- C8: an id with no stored `project_status` row is observed with status
`pending` (the DDL default), i.e. an absent id behaves as if pending. -/
theorem C8_absent_status_defaults_pending (statuses : Store String) (id : String)
    (h : get_all statuses id = none) : statusObservable statuses id = "pending" := by
  simp [statusObservable, h, statusDdlDefault]

theorem C8_witness : get_all ([] : Store String) "p9-unknown" = none ∧
    statusObservable [] "p9-unknown" = "pending" :=
  ⟨rfl, C8_absent_status_defaults_pending [] "p9-unknown" rfl⟩

/-- C10: whatever JSON value `checked` carries (or `undef` when missing), the
stored column value is exactly `1` or `0` by JS truthiness, and the checklist
mapping served by `GET /api/progress` yields the strict boolean
`truthy checked` for that id after the round trip through the store. -/
theorem C10_checked_truthiness_roundtrip (ops : List (String × Nat)) (id : String) (j : Json) :
    (checkedToStored j = 0 ∨ checkedToStored j = 1) ∧
    storedToChecked (checkedToStored j) = truthy j ∧
    (get_all (upsert (applyUpserts [] ops) id (checkedToStored j)) id).map storedToChecked
      = some (truthy j) := by
  have hnd : ((applyUpserts ([] : Store Nat) ops).map Prod.fst).Nodup :=
    keys_applyUpserts ops [] (by simp)
  have h1 := lookup_of_rowsFor _ id (checkedToStored j)
    (rowsFor_upsert (applyUpserts [] ops) id (checkedToStored j) hnd)
  refine ⟨?_, ?_, ?_⟩
  · cases h : truthy j <;> simp [checkedToStored, h]
  · cases h : truthy j <;> simp [checkedToStored, storedToChecked, h]
  · rw [get_all, h1]
    cases h : truthy j <;> simp [checkedToStored, storedToChecked, h]

/-- C3: deleting an existing photo succeeds, removes the catalog row and the
blob (tolerating a blob that is already missing), and a repeated delete of
the same id answers `404 Photo not found` with nothing further changed. -/
theorem C3_delete_cleans_both_layers (st : AppState) (photoId : Nat) (photo : PhotoRow)
    (h : getPhoto st.photos photoId = some photo) :
    (deletePhoto st photoId).1 = DeleteResult.success ∧
    getPhoto (deletePhoto st photoId).2.photos photoId = none ∧
    photo.filename ∉ (deletePhoto st photoId).2.blobs ∧
    deletePhoto (deletePhoto st photoId).2 photoId =
      (DeleteResult.notFound 404 "Photo not found", (deletePhoto st photoId).2) := by
  have hd : deletePhoto st photoId = (DeleteResult.success,
      { photos := st.photos.filter (fun p => p.id != photoId),
        blobs := if photo.filename ∈ st.blobs
          then st.blobs.filter (fun f => f != photo.filename) else st.blobs,
        nextId := st.nextId }) := by
    unfold deletePhoto
    rw [h]
  have hgone : getPhoto (st.photos.filter (fun p => p.id != photoId)) photoId = none := by
    unfold getPhoto
    rw [List.find?_eq_none]
    intro x hx
    have hne := (List.mem_filter.mp hx).2
    simp only [bne_iff_ne, ne_eq, decide_eq_true_eq] at hne
    simp only [beq_eq_false_iff_ne, ne_eq]
    intro hcontra
    rw [beq_iff_eq] at hcontra
    exact hne hcontra
  have h2 : getPhoto (deletePhoto st photoId).2.photos photoId = none := by
    rw [hd]
    exact hgone
  refine ⟨by rw [hd], h2, ?_, deletePhoto_notFound _ photoId h2⟩
  rw [hd]
  by_cases hb : photo.filename ∈ st.blobs
  · rw [if_pos hb]
    intro hmem
    have := (List.mem_filter.mp hmem).2
    simp [bne] at this
  · rw [if_neg hb]
    exact hb

theorem C3_witness :
    getPhoto [⟨1, "p1", "p1-5.jpg", "o.jpg", 5⟩] 1 = some ⟨1, "p1", "p1-5.jpg", "o.jpg", 5⟩ ∧
    ((deletePhoto ⟨[⟨1, "p1", "p1-5.jpg", "o.jpg", 5⟩], [], 2⟩ 1).1 = DeleteResult.success ∧
      getPhoto (deletePhoto ⟨[⟨1, "p1", "p1-5.jpg", "o.jpg", 5⟩], [], 2⟩ 1).2.photos 1 = none ∧
      "p1-5.jpg" ∉ (deletePhoto ⟨[⟨1, "p1", "p1-5.jpg", "o.jpg", 5⟩], [], 2⟩ 1).2.blobs ∧
      deletePhoto (deletePhoto ⟨[⟨1, "p1", "p1-5.jpg", "o.jpg", 5⟩], [], 2⟩ 1).2 1 =
        (DeleteResult.notFound 404 "Photo not found",
          (deletePhoto ⟨[⟨1, "p1", "p1-5.jpg", "o.jpg", 5⟩], [], 2⟩ 1).2)) :=
  ⟨by decide,
    C3_delete_cleans_both_layers ⟨[⟨1, "p1", "p1-5.jpg", "o.jpg", 5⟩], [], 2⟩ 1
      ⟨1, "p1", "p1-5.jpg", "o.jpg", 5⟩ (by decide)⟩

/-- C5: a slot with zero catalog photos exports as `404 No photos found`,
never as an archive (empty or otherwise). -/
theorem C5_export_empty_slot_404 (table : List PhotoRow) (blobs : List String) (slot : String)
    (h : table.filter (fun p => p.slot_id == slot) = []) :
    exportSlot table blobs slot = ExportResult.notFound 404 "No photos found" := by
  unfold exportSlot downloadPhotos
  rw [h]
  rfl

theorem C5_witness :
    ([⟨1, "p1", "a.jpg", "o.jpg", 5⟩] : List PhotoRow).filter
        (fun p => p.slot_id == "nonexistent-slot") = [] ∧
    exportSlot [⟨1, "p1", "a.jpg", "o.jpg", 5⟩] ["a.jpg"] "nonexistent-slot" =
      ExportResult.notFound 404 "No photos found" :=
  ⟨by decide, C5_export_empty_slot_404 [⟨1, "p1", "a.jpg", "o.jpg", 5⟩] ["a.jpg"]
    "nonexistent-slot" (by decide)⟩

/-- C7: within a slot, the aggregate progress view lists photos in descending
upload time, the archive export lists the same photos in ascending upload
time, and the two listings hold exactly the same photos. -/
theorem C7_photo_orderings (table : List PhotoRow) (slot : String) :
    (photosBySlot table slot).Pairwise leDesc ∧
    (downloadPhotos table slot).Pairwise leAsc ∧
    List.Perm (photosBySlot table slot) (downloadPhotos table slot) := by
  refine ⟨?_, ?_, ?_⟩
  · exact (List.sorted_insertionSort leDesc table).filter (fun p => p.slot_id == slot)
  · exact List.sorted_insertionSort leAsc (table.filter (fun p => p.slot_id == slot))
  · have h1 := (List.perm_insertionSort leDesc table).filter (fun p => p.slot_id == slot)
    have h2 := List.perm_insertionSort leAsc (table.filter (fun p => p.slot_id == slot))
    exact h1.trans h2.symm

/-- C2: when every blob of the slot's photos is present, the archive has
exactly N entries named `<friendly>-photo-1..N` whose sources follow the
ascending upload-time scan; in general an entry is produced exactly for the
photos whose blob exists, each named `<friendly>-photo-<i+1>.jpg` by its
0-based position `i` in the ascending scan, rows with missing blobs being
skipped silently. -/
theorem C2_export_entry_naming (table : List PhotoRow) (blobs : List String) (slot : String) :
    ((∀ p ∈ downloadPhotos table slot, p.filename ∈ blobs) →
      (archiveEntries blobs (friendlySlotName slot) (downloadPhotos table slot)).length =
        (downloadPhotos table slot).length ∧
      (archiveEntries blobs (friendlySlotName slot) (downloadPhotos table slot)).map Prod.fst =
        (List.range (downloadPhotos table slot).length).map (entryName (friendlySlotName slot)) ∧
      (archiveEntries blobs (friendlySlotName slot) (downloadPhotos table slot)).map Prod.snd =
        (downloadPhotos table slot).map PhotoRow.filename) ∧
    archiveEntries blobs (friendlySlotName slot) (downloadPhotos table slot) =
      ((downloadPhotos table slot).enum.filter
          (fun ip => decide (ip.2.filename ∈ blobs))).map
        (fun ip => (entryName (friendlySlotName slot) ip.1, ip.2.filename)) := by
  have hgen : archiveEntries blobs (friendlySlotName slot) (downloadPhotos table slot) =
      ((downloadPhotos table slot).enum.filter
          (fun ip => decide (ip.2.filename ∈ blobs))).map
        (fun ip => (entryName (friendlySlotName slot) ip.1, ip.2.filename)) :=
    filterMap_ite _ _ _
  refine ⟨?_, hgen⟩
  intro hall
  have hfull : (downloadPhotos table slot).enum.filter
      (fun ip => decide (ip.2.filename ∈ blobs)) = (downloadPhotos table slot).enum := by
    rw [List.filter_eq_self]
    intro ip hip
    have hmem : ip.2 ∈ downloadPhotos table slot := by
      have hg := List.mem_enum_iff_getElem?.mp hip
      exact List.getElem?_mem hg
    simpa using hall ip.2 hmem
  rw [hgen, hfull]
  refine ⟨?_, ?_, ?_⟩
  · rw [List.length_map, List.enum_length]
  · rw [List.map_map]
    have hc : (Prod.fst ∘ fun ip : Nat × PhotoRow =>
        (entryName (friendlySlotName slot) ip.1, ip.2.filename)) =
        (entryName (friendlySlotName slot)) ∘ Prod.fst := rfl
    rw [hc, ← List.map_map, List.enum_map_fst]
  · rw [List.map_map]
    have hc : (Prod.snd ∘ fun ip : Nat × PhotoRow =>
        (entryName (friendlySlotName slot) ip.1, ip.2.filename)) =
        PhotoRow.filename ∘ Prod.snd := rfl
    rw [hc, ← List.map_map, List.enum_map_snd]

theorem C2_witness :
    (∀ p ∈ downloadPhotos [⟨1, "s", "b.jpg", "o1", 20⟩, ⟨2, "s", "a.jpg", "o2", 10⟩] "s",
        p.filename ∈ ["a.jpg", "b.jpg"]) ∧
    ((archiveEntries ["a.jpg", "b.jpg"] (friendlySlotName "s")
        (downloadPhotos [⟨1, "s", "b.jpg", "o1", 20⟩, ⟨2, "s", "a.jpg", "o2", 10⟩] "s")).length =
      (downloadPhotos [⟨1, "s", "b.jpg", "o1", 20⟩, ⟨2, "s", "a.jpg", "o2", 10⟩] "s").length ∧
    (archiveEntries ["a.jpg", "b.jpg"] (friendlySlotName "s")
        (downloadPhotos [⟨1, "s", "b.jpg", "o1", 20⟩,
          ⟨2, "s", "a.jpg", "o2", 10⟩] "s")).map Prod.fst =
      (List.range (downloadPhotos [⟨1, "s", "b.jpg", "o1", 20⟩,
          ⟨2, "s", "a.jpg", "o2", 10⟩] "s").length).map (entryName (friendlySlotName "s")) ∧
    (archiveEntries ["a.jpg", "b.jpg"] (friendlySlotName "s")
        (downloadPhotos [⟨1, "s", "b.jpg", "o1", 20⟩,
          ⟨2, "s", "a.jpg", "o2", 10⟩] "s")).map Prod.snd =
      (downloadPhotos [⟨1, "s", "b.jpg", "o1", 20⟩,
          ⟨2, "s", "a.jpg", "o2", 10⟩] "s").map PhotoRow.filename) :=
  ⟨by decide,
    (C2_export_entry_naming [⟨1, "s", "b.jpg", "o1", 20⟩, ⟨2, "s", "a.jpg", "o2", 10⟩]
      ["a.jpg", "b.jpg"] "s").1 (by decide)⟩

/-- C4 counterexample: a 15 MiB upload with an allow-listed content type is
rejected before any normalization or disk write, but with status 500, not a
400-class status: multer's `LIMIT_FILE_SIZE` error reaches Express's default
error handler because `server.js` registers no error-handling middleware. -/
theorem C4_counterexample :
    (processUpload (fun b => some b) 0 0 "p1-dishwasher-latch"
        (some ⟨"image/jpeg", 15 * 1024 * 1024, "big.jpg", []⟩) ⟨[], [], 1⟩).1 =
      UploadOutcome.rejected 500 "File too large" ∧
    (processUpload (fun b => some b) 0 0 "p1-dishwasher-latch"
        (some ⟨"image/jpeg", 15 * 1024 * 1024, "big.jpg", []⟩) ⟨[], [], 1⟩).2 =
      (⟨[], [], 1⟩ : AppState) ∧
    ¬ is4xx 500 := by
  refine ⟨?_, ?_, by decide⟩ <;> decide

/-- C4 (amended): every upload with no file, a disallowed declared content
type, or a payload over 10 MiB is rejected with the server state unchanged
(no disk write) and without consulting the normalizer (the outcome is the
same for any two normalizers); the missing-file case is answered 400
`No file uploaded`, while the multer-level rejections (type, size) are
answered 500 by Express's default error handler. -/
theorem C4_invalid_upload_rejected_early (n₁ n₂ : List Nat → Option (List Nat))
    (now dbNow : Nat) (slotId : String) (file : Option UploadFile) (st : AppState) :
    (file = none →
      processUpload n₁ now dbNow slotId file st =
        (UploadOutcome.rejected 400 "No file uploaded", st)) ∧
    (∀ f, file = some f → (f.mimetype ∉ allowedTypes ∨ fileSizeLimit < f.size) →
      (∃ msg, processUpload n₁ now dbNow slotId file st =
        (UploadOutcome.rejected 500 msg, st)) ∧
      processUpload n₁ now dbNow slotId file st =
        processUpload n₂ now dbNow slotId file st) := by
  constructor
  · intro hnone
    subst hnone
    rfl
  · intro f hf hbad
    subst hf
    by_cases hm : f.mimetype ∈ allowedTypes
    · have hs : ¬ f.size ≤ fileSizeLimit := by
        rcases hbad with hbad | hbad
        · exact absurd hm hbad
        · omega
      constructor
      · refine ⟨"File too large", ?_⟩
        simp only [processUpload]
        rw [if_pos hm, if_neg hs]
      · simp only [processUpload]
        rw [if_pos hm, if_pos hm, if_neg hs, if_neg hs]
    · constructor
      · refine ⟨"Invalid file type. Only images are allowed.", ?_⟩
        simp only [processUpload]
        rw [if_neg hm]
      · simp only [processUpload]
        rw [if_neg hm, if_neg hm]

theorem C4_witness :
    ((("text/plain" : String) ∉ allowedTypes ∨
        fileSizeLimit < (5 : Nat)) ∧
      ((∃ msg, processUpload (fun b => some b) 0 0 "s"
          (some ⟨"text/plain", 5, "a.txt", []⟩) ⟨[], [], 1⟩ =
        (UploadOutcome.rejected 500 msg, (⟨[], [], 1⟩ : AppState))) ∧
      processUpload (fun b => some b) 0 0 "s"
          (some ⟨"text/plain", 5, "a.txt", []⟩) ⟨[], [], 1⟩ =
        processUpload (fun _ => none) 0 0 "s"
          (some ⟨"text/plain", 5, "a.txt", []⟩) ⟨[], [], 1⟩)) :=
  ⟨Or.inl (by decide),
    (C4_invalid_upload_rejected_early (fun b => some b) (fun _ => none) 0 0 "s"
      (some ⟨"text/plain", 5, "a.txt", []⟩) ⟨[], [], 1⟩).2
      ⟨"text/plain", 5, "a.txt", []⟩ rfl (Or.inl (by decide))⟩

/-- C9: when normalization fails on an otherwise valid upload (file present,
allow-listed type, within the size limit), the request is answered with the
500-class `Failed to upload photo` and the server state is unchanged: no
partial blob is left in the uploads directory and no catalog row is
created. -/
theorem C9_normalization_failure_leaves_no_trace (normalize : List Nat → Option (List Nat))
    (now dbNow : Nat) (slotId : String) (f : UploadFile) (st : AppState)
    (hmime : f.mimetype ∈ allowedTypes) (hsize : f.size ≤ fileSizeLimit)
    (hfail : normalize f.buffer = none) :
    processUpload normalize now dbNow slotId (some f) st =
      (UploadOutcome.rejected 500 "Failed to upload photo", st) := by
  simp only [processUpload]
  rw [if_pos hmime, if_pos hsize, hfail]

theorem C9_witness :
    (("image/jpeg" : String) ∈ allowedTypes ∧ (4 : Nat) ≤ fileSizeLimit ∧
      (fun _ : List Nat => (none : Option (List Nat))) [1, 2] = none) ∧
    processUpload (fun _ => none) 0 0 "p2-humidifier"
        (some ⟨"image/jpeg", 4, "x.jpg", [1, 2]⟩) ⟨[], [], 1⟩ =
      (UploadOutcome.rejected 500 "Failed to upload photo", (⟨[], [], 1⟩ : AppState)) :=
  ⟨⟨by decide, by decide, rfl⟩,
    C9_normalization_failure_leaves_no_trace (fun _ => none) 0 0 "p2-humidifier"
      ⟨"image/jpeg", 4, "x.jpg", [1, 2]⟩ ⟨[], [], 1⟩ (by decide) (by decide) rfl⟩

/-- C6: the stored filename derives deterministically from the slot id and
the upload millisecond as `<slotId>-<uploadMillis>.jpg` and the derivation is
injective in the pair: two uploads can share a filename only with the same
slot in the same millisecond, so concurrent uploads to different slots never
collide. -/
theorem C6_filename_injective (s₁ s₂ : String) (t₁ t₂ : Nat)
    (h : photoFilename s₁ t₁ = photoFilename s₂ t₂) : s₁ = s₂ ∧ t₁ = t₂ := by
  have hd : s₁.data ++ '-' :: ((Nat.repr t₁).data ++ ['.', 'j', 'p', 'g']) =
      s₂.data ++ '-' :: ((Nat.repr t₂).data ++ ['.', 'j', 'p', 'g']) := by
    have hc := congrArg String.data h
    simp only [photoFilename, String.data_append] at hc
    simp only [show ∀ n : Nat, (toString n : String) = Nat.repr n from fun _ => rfl] at hc
    simp only [show ("-" : String).data = ['-'] from rfl,
      show (".jpg" : String).data = ['.', 'j', 'p', 'g'] from rfl,
      List.append_assoc, List.singleton_append] at hc
    exact hc
  have hnd : ∀ t : Nat, '-' ∉ (Nat.repr t).data ++ ['.', 'j', 'p', 'g'] := by
    intro t hm
    rcases List.mem_append.mp hm with hin | hin
    · have hdig := repr_digits t '-' hin
      simp at hdig
    · simp at hin
  obtain ⟨hs, ht⟩ := last_dash_split _ _ _ _ (hnd t₁) (hnd t₂) hd
  constructor
  · cases s₁
    cases s₂
    exact congrArg String.mk hs
  · have hr : (Nat.repr t₁).data = (Nat.repr t₂).data := List.append_cancel_right ht
    have hv := congrArg digitsVal hr
    rwa [repr_val, repr_val] at hv

theorem C6_witness :
    photoFilename "p1-dishwasher-latch" 1700000000000 =
      photoFilename "p1-dishwasher-latch" 1700000000000 ∧
    (("p1-dishwasher-latch" : String) = "p1-dishwasher-latch" ∧
      (1700000000000 : Nat) = 1700000000000) :=
  ⟨rfl, C6_filename_injective "p1-dishwasher-latch" "p1-dishwasher-latch"
    1700000000000 1700000000000 rfl⟩

end HomeProjects
